import Mathlib

/-!
Shallow embedding of the ray tracer in src/main.rs and src/material.rs.

Vectors are the 3-component real vectors the code uses (nalgebra Vector3 of f64,
modelled over the reals); the hidden thread-local random values consumed by the
materials are passed as explicit parameters. Floating-point square root is
modelled by Real.sqrt (which returns 0 on negative inputs; the Rust code gets
NaN there, and in every place where this matters the downstream comparison
taken by the code agrees with the 0 value, as proved below).
-/

noncomputable section
open Classical

/-- The 3-component real vector type (nalgebra Vector3 of f64). -/
structure Vec3 where
  x : ℝ
  y : ℝ
  z : ℝ

@[ext]
theorem Vec3.ext_fields {a b : Vec3} (hx : a.x = b.x) (hy : a.y = b.y) (hz : a.z = b.z) : a = b := by
  cases a
  cases b
  simp_all

instance : Add Vec3 :=
  ⟨fun a b => ⟨a.x + b.x, a.y + b.y, a.z + b.z⟩⟩

instance : Sub Vec3 :=
  ⟨fun a b => ⟨a.x - b.x, a.y - b.y, a.z - b.z⟩⟩

instance : Neg Vec3 :=
  ⟨fun a => ⟨-a.x, -a.y, -a.z⟩⟩

instance : SMul ℝ Vec3 :=
  ⟨fun c a => ⟨c * a.x, c * a.y, c * a.z⟩⟩

instance : Zero Vec3 :=
  ⟨⟨0, 0, 0⟩⟩

@[simp]
theorem Vec3.add_def (a b : Vec3) : a + b = ⟨a.x + b.x, a.y + b.y, a.z + b.z⟩ := rfl

@[simp]
theorem Vec3.sub_def (a b : Vec3) : a - b = ⟨a.x - b.x, a.y - b.y, a.z - b.z⟩ := rfl

@[simp]
theorem Vec3.neg_def (a : Vec3) : -a = ⟨-a.x, -a.y, -a.z⟩ := rfl

@[simp]
theorem Vec3.smul_def (c : ℝ) (a : Vec3) : c • a = ⟨c * a.x, c * a.y, c * a.z⟩ := rfl

@[simp]
theorem Vec3.zero_def : (0 : Vec3) = ⟨0, 0, 0⟩ := rfl

/-- Vector dot product (nalgebra dot). -/
def dot (a b : Vec3) : ℝ :=
  a.x * b.x + a.y * b.y + a.z * b.z

/-- nalgebra magnitude_squared. -/
def magnitude_squared (v : Vec3) : ℝ :=
  dot v v

/-- nalgebra magnitude. -/
def magnitude (v : Vec3) : ℝ :=
  Real.sqrt (magnitude_squared v)

/-- nalgebra normalize: divide the vector by its magnitude. -/
def Vec3.normalize (v : Vec3) : Vec3 :=
  (magnitude v)⁻¹ • v

/-- Component-wise product, the zip_map with multiplication used in ray_color. -/
def cmul (a b : Vec3) : Vec3 :=
  ⟨a.x * b.x, a.y * b.y, a.z * b.z⟩

/-- Modelled from the spec: Ray is pure data, origin plus direction
(ray.rs is not among the provided sources; main.rs and material.rs construct
rays with Ray::new(origin, direction) and read ray.dir). -/
structure Ray where
  origin : Vec3
  dir : Vec3

/-- Ray::new as used by the materials. -/
def Ray.new (origin dir : Vec3) : Ray :=
  ⟨origin, dir⟩

/-- Modelled from the spec: HitRecord carries point, unit normal oriented
against the incoming ray, parameter t and the front_face flag
(hittable.rs is not among the provided sources; material.rs reads
hit.point, hit.normal and hit.front_face). The material reference held by the
Rust HitRecord is kept separately, see HittableList below. -/
structure HitRecord where
  point : Vec3
  normal : Vec3
  t : ℝ
  front_face : Bool

/-- static INFINITY: f64 = f64::MAX (material.rs line 8 / main.rs line 17). -/
def INFINITY : ℝ :=
  ((2 : ℝ) ^ 53 - 1) * 2 ^ 971

/-- material.rs reflect: v - 2.0 * v.dot(n) * n. -/
def reflect (v n : Vec3) : Vec3 :=
  v - (2 * dot v n) • n

/-- material.rs clamp (identical copy in main.rs). -/
def clamp (x min max : ℝ) : ℝ :=
  if x < min then min else if x > max then max else x

/-- material.rs near_zero: raw component comparisons, no absolute value. -/
def near_zero (vec : Vec3) : Prop :=
  vec.x < 1e-8 ∧ vec.y < 1e-8 ∧ vec.z < 1e-8

/-- The cos_theta computed inside refract: clamp((-uv).dot(n), 1.0, INFINITY). -/
def refract_cos_theta (uv n : Vec3) : ℝ :=
  clamp (dot (-uv) n) 1 INFINITY

/-- material.rs refract (Snell decomposition, with the clamped cos_theta). -/
def refract (uv n : Vec3) (etai_over_etat : ℝ) : Vec3 :=
  let r_out_perp := etai_over_etat • (uv + (refract_cos_theta uv n) • n)
  let r_out_parallel := (-(Real.sqrt |1 - magnitude_squared r_out_perp|)) • n
  r_out_perp + r_out_parallel

/-- Metal material: albedo plus fuzz. -/
structure Metal where
  albedo : Vec3
  fuzz : ℝ

/-- Metal::new: fuzz is stored as-is when fuzz < 1.0, else as 1.0. -/
def Metal.new (albedo : Vec3) (fuzz : ℝ) : Metal :=
  ⟨albedo, if fuzz < 1 then fuzz else 1⟩

/-- The (possibly fuzz-perturbed) reflected direction computed by Metal::scatter;
rnd models the hidden random_in_unit_sphere() draw. -/
def metal_reflected (self : Metal) (ray : Ray) (hit : HitRecord) (rnd : Vec3) : Vec3 :=
  let r := reflect (ray.dir.normalize) hit.normal
  if self.fuzz > 0 then r + self.fuzz • rnd else r

/-- Metal::scatter; rnd models the hidden random_in_unit_sphere() draw. -/
def Metal.scatter (self : Metal) (ray : Ray) (hit : HitRecord) (rnd : Vec3) : Option (Ray × Vec3) :=
  let reflected := metal_reflected self ray hit rnd
  if dot reflected hit.normal > 0 then
    some (Ray.new hit.point reflected, self.albedo)
  else
    none

/-- Lambertian material. -/
structure Lambertian where
  albedo : Vec3

/-- Lambertian::new. -/
def Lambertian.new (albedo : Vec3) : Lambertian :=
  ⟨albedo⟩

/-- Lambertian::scatter; rnd_unit models the hidden random_unit_vector() draw. -/
def Lambertian.scatter (self : Lambertian) (ray : Ray) (hit : HitRecord) (rnd_unit : Vec3) :
    Option (Ray × Vec3) :=
  let scatter_direction := hit.normal + rnd_unit
  let scatter_direction := if near_zero scatter_direction then hit.normal else scatter_direction
  some (Ray.new hit.point scatter_direction, self.albedo)

/-- Dielectric material: a refractive index. -/
structure Dielectric where
  ir : ℝ

/-- Dielectric::new. -/
def Dielectric.new (ir : ℝ) : Dielectric :=
  ⟨ir⟩

/-- The cos_theta computed inside Dielectric::scatter:
clamp((-unit_direction).dot(hit.normal), 1.0, INFINITY). -/
def dielectric_cos_theta (ray : Ray) (hit : HitRecord) : ℝ :=
  clamp (dot (-(ray.dir.normalize)) hit.normal) 1 INFINITY

/-- The sin_theta computed inside Dielectric::scatter. -/
def dielectric_sin_theta (ray : Ray) (hit : HitRecord) : ℝ :=
  Real.sqrt (1 - dielectric_cos_theta ray hit * dielectric_cos_theta ray hit)

/-- The cannot_refract condition of Dielectric::scatter:
refraction_ratio * sin_theta > 1.0, where refraction_ratio is 1/ir on front
faces and ir otherwise. -/
def dielectric_cannot_refract (self : Dielectric) (ray : Ray) (hit : HitRecord) : Prop :=
  (if hit.front_face then 1 / self.ir else self.ir) * dielectric_sin_theta ray hit > 1

/-- Dielectric::scatter. Note that the refract call in the source passes the
raw index self.ir, not the computed refraction_ratio. -/
def Dielectric.scatter (self : Dielectric) (ray : Ray) (hit : HitRecord) : Option (Ray × Vec3) :=
  let attenuation : Vec3 := ⟨1, 1, 1⟩
  let unit_direction := ray.dir.normalize
  let direction :=
    if dielectric_cannot_refract self ray hit then
      reflect unit_direction hit.normal
    else
      refract unit_direction hit.normal self.ir
  some (Ray.new hit.point direction, attenuation)

/-- Modelled from the spec: the scene aggregate (hittable_list.rs is not among
the provided sources). Its hit method returns the closest hit in range together
with the hit material; ray_color only consumes hit records and the material
scatter result, so the aggregate is embedded as its hit function, returning the
record and the material trait object as a scatter function. -/
def HittableList : Type :=
  Ray → ℝ → ℝ → Option (HitRecord × (Ray → HitRecord → Option (Ray × Vec3)))

/-- main.rs get_background_color: linear interpolation between white and sky blue
driven by the normalized direction height. -/
def get_background_color (ray : Ray) : Vec3 :=
  let unit_dir := ray.dir.normalize
  let t := 0.5 * (unit_dir.y + 1)
  (1 - t) • (⟨1, 1, 1⟩ : Vec3) + t • (⟨0.5, 0.7, 1⟩ : Vec3)

/-- main.rs ray_color: the recursive radiance estimator. -/
def ray_color (ray : Ray) (drawables : HittableList) (depth : ℤ) : Vec3 :=
  if h : depth ≤ 0 then
    ⟨0, 0, 0⟩
  else
    match drawables ray 0.001 INFINITY with
    | some (hit, scat) =>
      match scat ray hit with
      | some (r, atten) => cmul atten (ray_color r drawables (depth - 1))
      | none => ⟨0, 0, 0⟩
    | none => get_background_color ray
termination_by depth.toNat
decreasing_by
  simp_wf
  omega

end

/-! Test fixtures and helper lemmas shared by the claim theorems. -/

/-- Scene with no objects: its hit test always reports a miss. -/
def empty_scene : HittableList :=
  fun _ _ _ => none

/-- Test ray pointing straight down the negative z axis. -/
def ray_test : Ray :=
  Ray.new ⟨0, 0, 0⟩ ⟨0, 0, -1⟩

/-- Test ray with direction (3, 0, -4), of magnitude 5. -/
def ray_diag : Ray :=
  Ray.new ⟨0, 0, 0⟩ ⟨3, 0, -4⟩

/-- Test hit record: front-face hit at the origin with normal (0, 0, 1). -/
def hit_test : HitRecord :=
  ⟨⟨0, 0, 0⟩, ⟨0, 0, 1⟩, 1, true⟩

/-- Test hit record whose normal has all components negative and large. -/
def hit_neg : HitRecord :=
  ⟨⟨0, 0, 0⟩, ⟨-2, -2, -2⟩, 1, true⟩

theorem one_le_INFINITY_aux : (1 : ℝ) ≤ INFINITY := by
  unfold INFINITY
  norm_num

theorem clamp_one_le (x : ℝ) : 1 ≤ clamp x 1 INFINITY := by
  unfold clamp
  split_ifs with h1 h2
  · exact le_refl 1
  · exact one_le_INFINITY_aux
  · exact not_lt.mp h1

theorem sin_theta_zero (ray : Ray) (hit : HitRecord) : dielectric_sin_theta ray hit = 0 := by
  unfold dielectric_sin_theta
  apply Real.sqrt_eq_zero_of_nonpos
  have h := clamp_one_le (dot (-(ray.dir.normalize)) hit.normal)
  have h1 : 1 ≤ dielectric_cos_theta ray hit := h
  nlinarith

theorem not_cannot_refract (self : Dielectric) (ray : Ray) (hit : HitRecord) :
    ¬ dielectric_cannot_refract self ray hit := by
  unfold dielectric_cannot_refract
  rw [sin_theta_zero, mul_zero]
  norm_num

theorem sqrt_twentyfive : Real.sqrt 25 = 5 := by
  rw [show (25 : ℝ) = 5 ^ 2 by norm_num]
  exact Real.sqrt_sq (by norm_num)

theorem ray_diag_unit : ray_diag.dir.normalize = ⟨0.6, 0, -0.8⟩ := by
  unfold Vec3.normalize magnitude magnitude_squared dot ray_diag Ray.new
  dsimp
  rw [show (3 : ℝ) * 3 + 0 * 0 + -4 * -4 = 25 by norm_num, sqrt_twentyfive]
  norm_num


/-- C2: the cos_theta computed inside Dielectric::scatter and inside the refract
helper equals clamp(dot(-unit_direction, normal), 1.0, INFINITY), and is
therefore never less than 1, regardless of the actual angle of incidence. -/
theorem dielectric_refract_cos_theta_clamped (ray : Ray) (hit : HitRecord) (uv n : Vec3) :
    dielectric_cos_theta ray hit = clamp (dot (-(ray.dir.normalize)) hit.normal) 1 INFINITY ∧
    1 ≤ dielectric_cos_theta ray hit ∧
    refract_cos_theta uv n = clamp (dot (-uv) n) 1 INFINITY ∧
    1 ≤ refract_cos_theta uv n :=
  ⟨rfl, clamp_one_le _, rfl, clamp_one_le _⟩

/-- C3 counterexample: Metal::new called with fuzz = -1/2 stores fuzz = -1/2,
which lies outside [0, 1]; the constructor does not clamp from below. -/
theorem metal_new_negative_fuzz_kept :
    (Metal.new ⟨1, 1, 1⟩ (-(1 / 2))).fuzz = -(1 / 2) ∧
    ¬ (0 ≤ (Metal.new ⟨1, 1, 1⟩ (-(1 / 2))).fuzz ∧ (Metal.new ⟨1, 1, 1⟩ (-(1 / 2))).fuzz ≤ 1) := by
  have h : (Metal.new ⟨1, 1, 1⟩ (-(1 / 2))).fuzz = -(1 / 2) := by
    unfold Metal.new
    dsimp
    rw [if_pos (by norm_num : -(1 / 2 : ℝ) < 1)]
  refine ⟨h, ?_⟩
  rw [h]
  intro hcontra
  have := hcontra.1
  norm_num at this

/-- C3 amended: Metal::new clamps fuzz only from above: the stored fuzz is the
argument itself or 1, and in every case it is at most 1 (so it lies in [0, 1]
exactly when the argument is nonnegative). -/
theorem metal_new_fuzz_le_one (albedo : Vec3) (fuzz : ℝ) :
    (Metal.new albedo fuzz).fuzz ≤ 1 ∧
    ((Metal.new albedo fuzz).fuzz = fuzz ∨ (Metal.new albedo fuzz).fuzz = 1) := by
  unfold Metal.new
  dsimp
  split_ifs with h
  · exact ⟨h.le, Or.inl rfl⟩
  · exact ⟨le_refl 1, Or.inr rfl⟩

/-- C5: Lambertian::scatter always returns Some; the scattered ray's origin is
hit.point and the attenuation is the albedo. -/
theorem lambertian_scatter_always_some (self : Lambertian) (ray : Ray) (hit : HitRecord)
    (rnd_unit : Vec3) :
    ∃ d : Vec3, Lambertian.scatter self ray hit rnd_unit = some (Ray.new hit.point d, self.albedo) := by
  unfold Lambertian.scatter
  exact ⟨_, rfl⟩

/-- C9: the total-internal-reflection branch of Dielectric::scatter is never
taken (the clamped cos_theta forces sin_theta to vanish), so the returned
direction is always refract(unit_direction, hit.normal, ir), invoked with the
raw index ir rather than the computed refraction_ratio. -/
theorem dielectric_scatter_always_refracts (self : Dielectric) (ray : Ray) (hit : HitRecord) :
    ¬ dielectric_cannot_refract self ray hit ∧
    Dielectric.scatter self ray hit =
      some (Ray.new hit.point (refract (ray.dir.normalize) hit.normal self.ir), ⟨1, 1, 1⟩) := by
  refine ⟨not_cannot_refract self ray hit, ?_⟩
  unfold Dielectric.scatter
  simp only [if_neg (not_cannot_refract self ray hit)]

/-- C10: near_zero compares raw components (no absolute value): it holds exactly
when all three components are below 1e-8, in particular for (-1, -1, -1), and
Lambertian::scatter replaces any such scatter direction by hit.normal. -/
theorem near_zero_raw_components (v : Vec3) (self : Lambertian) (ray : Ray) (hit : HitRecord)
    (rnd_unit : Vec3) :
    (near_zero v ↔ (v.x < 1e-8 ∧ v.y < 1e-8 ∧ v.z < 1e-8)) ∧
    near_zero ⟨-1, -1, -1⟩ ∧
    (near_zero (hit.normal + rnd_unit) →
      Lambertian.scatter self ray hit rnd_unit = some (Ray.new hit.point hit.normal, self.albedo)) := by
  refine ⟨Iff.rfl, ?_, ?_⟩
  · unfold near_zero
    refine ⟨?_, ?_, ?_⟩ <;> norm_num
  · intro h
    unfold Lambertian.scatter
    simp only [if_pos h]

/-- C10 witness: a hit whose normal is (-2, -2, -2) and a zero random draw give
an all-negative, large-magnitude scatter direction, which Lambertian::scatter
replaces by the normal. -/
theorem near_zero_raw_components_witness :
    Lambertian.scatter (Lambertian.new ⟨0.5, 0.5, 0.5⟩) ray_test hit_neg ⟨0, 0, 0⟩ =
      some (Ray.new hit_neg.point hit_neg.normal, (Lambertian.new ⟨0.5, 0.5, 0.5⟩).albedo) := by
  apply (near_zero_raw_components ⟨0, 0, 0⟩ (Lambertian.new ⟨0.5, 0.5, 0.5⟩) ray_test hit_neg
    ⟨0, 0, 0⟩).2.2
  unfold near_zero hit_neg
  refine ⟨?_, ?_, ?_⟩ <;> norm_num


/-- C4: Metal::scatter returns Some, with attenuation the albedo and scattered
origin hit.point, exactly when the (possibly fuzz-perturbed) reflected
direction has positive dot product with hit.normal; otherwise None. -/
theorem metal_scatter_some_iff (self : Metal) (ray : Ray) (hit : HitRecord) (rnd : Vec3) :
    (0 < dot (metal_reflected self ray hit rnd) hit.normal →
      Metal.scatter self ray hit rnd =
        some (Ray.new hit.point (metal_reflected self ray hit rnd), self.albedo)) ∧
    (¬ 0 < dot (metal_reflected self ray hit rnd) hit.normal →
      Metal.scatter self ray hit rnd = none) := by
  unfold Metal.scatter
  constructor
  · intro h
    simp only [if_pos h]
  · intro h
    simp only [if_neg h]

/-- C4 witness: the fuzz-0 metal at normal incidence reflects straight back,
the dot product is 1 > 0, and scatter returns Some with the albedo. -/
theorem metal_scatter_some_iff_witness :
    Metal.scatter (Metal.new ⟨0.8, 0.8, 0.8⟩ 0) ray_test hit_test ⟨0, 0, 0⟩ =
      some (Ray.new hit_test.point
        (metal_reflected (Metal.new ⟨0.8, 0.8, 0.8⟩ 0) ray_test hit_test ⟨0, 0, 0⟩),
        (Metal.new ⟨0.8, 0.8, 0.8⟩ 0).albedo) := by
  apply (metal_scatter_some_iff (Metal.new ⟨0.8, 0.8, 0.8⟩ 0) ray_test hit_test ⟨0, 0, 0⟩).1
  have hunit : ray_test.dir.normalize = ⟨0, 0, -1⟩ := by
    unfold Vec3.normalize magnitude magnitude_squared dot ray_test Ray.new
    dsimp
    rw [show (0 : ℝ) * 0 + 0 * 0 + -1 * -1 = 1 by norm_num, Real.sqrt_one]
    norm_num
  have hfuzz : (Metal.new ⟨0.8, 0.8, 0.8⟩ 0).fuzz = 0 := by
    unfold Metal.new
    dsimp
    rw [if_pos (by norm_num : (0 : ℝ) < 1)]
  have hrefl : metal_reflected (Metal.new ⟨0.8, 0.8, 0.8⟩ 0) ray_test hit_test ⟨0, 0, 0⟩ =
      ⟨0, 0, 1⟩ := by
    unfold metal_reflected
    simp only [hfuzz, hunit]
    rw [if_neg (by norm_num : ¬ (0 : ℝ) > 0)]
    unfold reflect dot hit_test
    dsimp
    refine Vec3.ext_fields ?_ ?_ ?_ <;> norm_num
  rw [hrefl]
  unfold dot hit_test
  norm_num

/-- C6: ray_color returns black (0, 0, 0) for every depth at most 0, for every
ray and every scene. -/
theorem ray_color_depth_nonpos_black (ray : Ray) (drawables : HittableList) (depth : ℤ)
    (h : depth ≤ 0) : ray_color ray drawables depth = ⟨0, 0, 0⟩ := by
  rw [ray_color]
  rw [dif_pos h]

/-- C6 witness: depth 0 on a concrete ray and the empty scene yields black. -/
theorem ray_color_depth_nonpos_black_witness :
    ray_color ray_test empty_scene 0 = ⟨0, 0, 0⟩ :=
  ray_color_depth_nonpos_black ray_test empty_scene 0 (by norm_num)

/-- C7: for a ray with nonzero direction and depth at least 1, if the scene hit
test over (0.001, INFINITY) reports a miss, ray_color returns the background
gradient (1-t)*(1,1,1) + t*(0.5,0.7,1) with t = 0.5*(unit_dir.y + 1). -/
theorem ray_color_miss_background (ray : Ray) (drawables : HittableList) (depth : ℤ)
    (hdir : ray.dir ≠ 0) (hdepth : 1 ≤ depth)
    (hmiss : drawables ray 0.001 INFINITY = none) :
    ray_color ray drawables depth =
      (1 - 0.5 * ((ray.dir.normalize).y + 1)) • (⟨1, 1, 1⟩ : Vec3) +
        (0.5 * ((ray.dir.normalize).y + 1)) • (⟨0.5, 0.7, 1⟩ : Vec3) := by
  rw [ray_color, dif_neg (by omega : ¬ depth ≤ 0), hmiss]
  rfl

/-- C7 witness: the downward test ray against the empty scene at depth 1 gives
the background gradient, which evaluates to (0.75, 0.85, 1). -/
theorem ray_color_miss_background_witness :
    ray_color ray_test empty_scene 1 = ⟨0.75, 0.85, 1⟩ := by
  have hdir : ray_test.dir ≠ 0 := by
    unfold ray_test Ray.new
    intro h
    have hz := congrArg Vec3.z h
    simp at hz
  have h := ray_color_miss_background ray_test empty_scene 1 hdir (by norm_num) rfl
  rw [h]
  have hunit : ray_test.dir.normalize = ⟨0, 0, -1⟩ := by
    unfold Vec3.normalize magnitude magnitude_squared dot ray_test Ray.new
    dsimp
    rw [show (0 : ℝ) * 0 + 0 * 0 + -1 * -1 = 1 by norm_num, Real.sqrt_one]
    norm_num
  rw [hunit]
  dsimp
  refine Vec3.ext_fields ?_ ?_ ?_ <;> norm_num

/-- C8: the reflect helper preserves the angle of incidence: for every vector v
and unit vector n, dot(reflect(v, n), n) = dot(-v, n). -/
theorem reflect_preserves_angle (v n : Vec3) (hn : dot n n = 1) :
    dot (reflect v n) n = dot (-v) n := by
  unfold reflect dot at *
  dsimp
  linear_combination (-(2 : ℝ) * (v.x * n.x + v.y * n.y + v.z * n.z)) * hn

/-- C8 witness: v = (1, 2, 3) and the unit normal n = (0, 0, 1). -/
theorem reflect_preserves_angle_witness :
    dot (reflect ⟨1, 2, 3⟩ ⟨0, 0, 1⟩) ⟨0, 0, 1⟩ = dot (-(⟨1, 2, 3⟩ : Vec3)) ⟨0, 0, 1⟩ :=
  reflect_preserves_angle ⟨1, 2, 3⟩ ⟨0, 0, 1⟩ (by unfold dot; norm_num)


/-- C1: the matching-medium dielectric does bend non-normal rays. For ir = 1,
the ray with direction (3, 0, -4) hitting a front face with unit normal
(0, 0, 1), the unit incoming direction is (0.6, 0, -0.8), yet scatter returns
the direction (0.6, 0, 0.2 - sqrt 0.6), which is a different vector: the
cos_theta clamp to [1, INFINITY) replaces the true cosine 0.8 by 1 inside
refract, so the perpendicular component is mis-computed. -/
theorem dielectric_matching_medium_bends_ray :
    Dielectric.scatter (Dielectric.new 1) ray_diag hit_test =
      some (Ray.new hit_test.point ⟨0.6, 0, 0.2 - Real.sqrt 0.6⟩, ⟨1, 1, 1⟩) ∧
    (⟨0.6, 0, 0.2 - Real.sqrt 0.6⟩ : Vec3) ≠ ray_diag.dir.normalize := by
  have hir : (Dielectric.new 1).ir = 1 := rfl
  have hd : dot (-(⟨0.6, 0, -0.8⟩ : Vec3)) ⟨0, 0, 1⟩ = 0.8 := by
    unfold dot
    dsimp
    norm_num
  have hcos : refract_cos_theta ⟨0.6, 0, -0.8⟩ ⟨0, 0, 1⟩ = 1 := by
    unfold refract_cos_theta
    rw [hd]
    unfold clamp
    rw [if_pos (by norm_num : (0.8 : ℝ) < 1)]
  have hperp : (1 : ℝ) • ((⟨0.6, 0, -0.8⟩ : Vec3) +
      refract_cos_theta ⟨0.6, 0, -0.8⟩ ⟨0, 0, 1⟩ • (⟨0, 0, 1⟩ : Vec3)) = ⟨0.6, 0, 0.2⟩ := by
    rw [hcos]
    dsimp
    refine Vec3.ext_fields ?_ ?_ ?_ <;> norm_num
  have hmsq : magnitude_squared ⟨0.6, 0, 0.2⟩ = 0.4 := by
    unfold magnitude_squared dot
    norm_num
  have habs : |1 - (0.4 : ℝ)| = 0.6 := by
    norm_num
  have hrefr : refract ⟨0.6, 0, -0.8⟩ ⟨0, 0, 1⟩ 1 = ⟨0.6, 0, 0.2 - Real.sqrt 0.6⟩ := by
    unfold refract
    simp only [hperp, hmsq, habs]
    dsimp
    refine Vec3.ext_fields ?_ ?_ ?_
    · norm_num
    · norm_num
    · ring
  have hne : (⟨0.6, 0, 0.2 - Real.sqrt 0.6⟩ : Vec3) ≠ ray_diag.dir.normalize := by
    rw [ray_diag_unit]
    intro h
    have hz := congrArg Vec3.z h
    dsimp at hz
    have h1 : Real.sqrt 0.6 = 1 := by linarith
    have h2 := Real.sq_sqrt (by norm_num : (0 : ℝ) ≤ 0.6)
    rw [h1] at h2
    norm_num at h2
  refine ⟨?_, hne⟩
  unfold Dielectric.scatter
  simp only [if_neg (not_cannot_refract (Dielectric.new 1) ray_diag hit_test)]
  rw [ray_diag_unit, hir, show hit_test.normal = ⟨0, 0, 1⟩ from rfl, hrefr]

